import Mathlib

/-!
Verification of the core of `roachperf`: a pooled-SSH remote execution and
file-transfer layer.  The Lean definitions below are a shallow embedding of
the Go source:

* `sscanfCtl` models `fmt.Sscanf(line, "C%o %d %s", &mode, &size, &name)`
  as used by `scpGet`;
* `parseControlLine` models the control-line handling of `scpGet`
  (the `err != nil` branch and the `n != 3` branch);
* `joinSelect` models the final `select { case err := <-errCh: ...;
  default: ... }` of `scpPut` / `scpGet`;
* `progressCopyAux` models `io.Copy` writing through `progressWriter`;
* `scpPutBytes` models the byte sequence the `scpPut` background task
  writes to the session's stdin;
* `copyLimited` / `scpGetBackground` model the download path
  `io.Copy(p, io.LimitReader(r, size))` and the surrounding steps;
* `newSSHSession` models the connection pool;
* `parallelUnits` / `drainLoop` model the fan-out executor `parallel`.
-/

namespace Roachperf

/-- Errors produced by the `fmt` scanner (`fmt.Sscanf`).  Go reports these
as distinct error values; only their identity matters here. -/
inductive ScanError where
  /-- a literal character of the format did not match the input
  ("input does not match format") -/
  | badFormatMatch
  /-- input ended where a verb or literal needed data ("unexpected EOF") -/
  | unexpectedEOF
  /-- a numeric verb found no digits ("expected integer") -/
  | expectedInteger
  /-- the scanned number does not fit the destination integer type -/
  | overflow
deriving DecidableEq, Repr

/-- Errors that can travel on a transfer's `errCh`. -/
inductive TransferError where
  /-- the error value returned by `fmt.Sscanf` (line 195 of the source) -/
  | scanError (e : ScanError)
  /-- the error `errors.New(string(line))` (line 199 of the source) -/
  | literalLine (line : String)
  /-- any other error (stream I/O, remote command exit, ...) -/
  | ioError (msg : String)
deriving DecidableEq, Repr

/-- Result of one `fmt.Sscanf(line, "C%o %d %s", &mode, &size, &name)` call:
`n` is the number of operands successfully scanned, `err` the returned
error, and `mode`/`size`/`name` hold the destination variables (still at
their zero values when scanning stopped before reaching them). -/
structure ScanOut where
  n : Nat
  mode : Nat
  size : Int
  name : String
  err : Option ScanError
deriving DecidableEq, Repr

/-- Drop leading whitespace, as the scanner's `SkipSpace` does before each
verb (and for the blank between verbs in the format). -/
def skipSpaces : List Char → List Char
  | [] => []
  | c :: rest => if c.isWhitespace then skipSpaces rest else c :: rest

/-- Is `c` an octal digit? -/
def isOctDigit (c : Char) : Bool := '0' ≤ c && c ≤ '7'

/-- Numeric value of a list of octal digits. -/
def octalVal (ds : List Char) : Nat :=
  ds.foldl (fun a c => a * 8 + (c.toNat - 48)) 0

/-- Numeric value of a list of decimal digits. -/
def decimalVal (ds : List Char) : Nat :=
  ds.foldl (fun a c => a * 10 + (c.toNat - 48)) 0

/-- The `%s` verb (third operand, into `name : string`): skip spaces, then
take the maximal run of non-space characters; at end of input the scanner
reports EOF instead. -/
def scanStrPhase (mode : Nat) (size : Int) (cs : List Char) : ScanOut :=
  match skipSpaces cs with
  | [] => ⟨2, mode, size, "", some ScanError.unexpectedEOF⟩
  | c :: rest =>
      ⟨3, mode, size, String.mk ((c :: rest).takeWhile (fun d => !d.isWhitespace)), none⟩

/-- The `%d` verb (second operand, into `size : int64`): skip spaces, accept
one optional sign, then at least one decimal digit; the value must fit a
signed 64-bit integer. -/
def scanDecPhase (mode : Nat) (cs0 : List Char) : ScanOut :=
  match skipSpaces cs0 with
  | [] => ⟨1, mode, 0, "", some ScanError.unexpectedEOF⟩
  | c :: rest =>
      let body := if c = '-' || c = '+' then rest else c :: rest
      let ds := body.takeWhile Char.isDigit
      let rest2 := body.dropWhile Char.isDigit
      if ds.isEmpty then ⟨1, mode, 0, "", some ScanError.expectedInteger⟩
      else
        let v : Int := (if c = '-' then -1 else 1) * (decimalVal ds : Int)
        if v < -(2 ^ 63) ∨ (2 ^ 63 - 1 : Int) < v then
          ⟨1, mode, 0, "", some ScanError.overflow⟩
        else scanStrPhase mode v rest2

/-- The `%o` verb (first operand, into `mode : uint32`): skip spaces, then
at least one octal digit (no sign for unsigned verbs); the value must fit
an unsigned 32-bit integer. -/
def scanOctPhase (cs0 : List Char) : ScanOut :=
  match skipSpaces cs0 with
  | [] => ⟨0, 0, 0, "", some ScanError.unexpectedEOF⟩
  | c :: rest =>
      let ds := (c :: rest).takeWhile isOctDigit
      let rest2 := (c :: rest).dropWhile isOctDigit
      if ds.isEmpty then ⟨0, 0, 0, "", some ScanError.expectedInteger⟩
      else
        let v := octalVal ds
        if 2 ^ 32 ≤ v then ⟨0, 0, 0, "", some ScanError.overflow⟩
        else scanDecPhase v rest2

/-- Model of `fmt.Sscanf(line, "C%o %d %s", &mode, &size, &name)`: the leading
literal `C` must match the first input character exactly, then the three
verbs run in order. -/
def sscanfCtl (line : String) : ScanOut :=
  match line.data with
  | [] => ⟨0, 0, 0, "", some ScanError.unexpectedEOF⟩
  | c :: rest =>
      if c = 'C' then scanOctPhase rest
      else ⟨0, 0, 0, "", some ScanError.badFormatMatch⟩

/-- Control-line handling of `scpGet` (source lines 192–201): scan the
line; a scan error is forwarded as-is; otherwise, if fewer than three
operands were scanned, `errors.New(string(line))` is sent. -/
def parseControlLine (line : String) : Except TransferError (Nat × Int × String) :=
  let out := sscanfCtl line
  match out.err with
  | some e => Except.error (TransferError.scanError e)
  | none =>
      if out.n ≠ 3 then Except.error (TransferError.literalLine line)
      else Except.ok (out.mode, out.size, out.name)

/-- State of a transfer's buffered error channel (`errCh`, capacity 1) at
the moment the foreground `session.Run` returns: either nothing was sent
and the channel is still open, or one error value is buffered, or the
channel was closed (the background task reached its final `close(errCh)`). -/
inductive ErrChState where
  | empty
  | pending (e : TransferError)
  | closedCh
deriving DecidableEq, Repr

/-- The final `select` of `scpPut` and `scpGet` (source lines 159–164 and
229–234).  Go's `select` takes the communication case whenever it is ready
and the `default` case only otherwise; receiving from a closed channel
yields the zero value `nil`. -/
def joinSelect (ch : ErrChState) (fg : Option TransferError) : Option TransferError :=
  match ch with
  | ErrChState.empty => fg
  | ErrChState.pending e => some e
  | ErrChState.closedCh => none

/-- Value returned by `scpPut` given the channel state and the foreground
`session.Run` result (`none` = nil). -/
def scpPutReturn (bg : ErrChState) (runResult : Option TransferError) : Option TransferError :=
  joinSelect bg runResult

/-- Value returned by `scpGet` given the channel state and the foreground
`session.Run` result. -/
def scpGetReturn (bg : ErrChState) (runResult : Option TransferError) : Option TransferError :=
  joinSelect bg runResult

/-! ### The progress-observing copy (`progressWriter`, source lines 113–127)

`io.Copy` reads a sequence of chunks from the source and writes each one
through the wrapper; writes of zero bytes never happen (`io.Copy` only
writes what a read returned, and only when it returned data).  After each
successful write of `n` bytes the wrapper does `done += n` and calls
`progress(float64(done) / float64(total))`; the quotient is modelled in
`ℚ` (exact for the division of one int64 by another as far as order and
the value 1 are concerned). -/

/-- The value handed to the progress callback when `p.done = m`:
`float64(done) / float64(total)`, modelled exactly in `ℚ`. -/
def progressVal (total : Int) (m : Nat) : ℚ := ((m : ℚ) / ((total : Int) : ℚ))

/-- One run of `io.Copy(p, src)` through a `progressWriter` with running
total `done` and declared total `total`: returns the bytes forwarded to
the underlying writer and the sequence of values passed to `progress`. -/
def progressCopyAux (total : Int) (done : Nat) : List (List Nat) → List Nat × List ℚ
  | [] => ([], [])
  | c :: rest =>
      let out := progressCopyAux total (done + c.length) rest
      (c ++ out.1, progressVal total (done + c.length) :: out.2)

/-- Full copy `progressCopy total chunks`: the copy starts with `done = 0`. -/
def progressCopy (total : Int) (chunks : List (List Nat)) : List Nat × List ℚ :=
  progressCopyAux total 0 chunks

/-- Bytes of a string, as written to a binary stream. -/
def strBytes (s : String) : List Nat := s.data.map Char.toNat

/-- Model of `fmt.Sprintf("%#o", n)` for a non-negative value: octal digits with the
alternate-form leading zero (Go prints `0` itself without a second zero). -/
def goSharpOctal (n : Nat) : String :=
  if n = 0 then "0" else "0" ++ String.mk (Nat.toDigits 8 n)

/-- The control line written by `scpPut` (source line 148):
`fmt.Fprintf(w, "C%#o %d %s\n", s.Mode().Perm(), s.Size(), path.Base(src))`. -/
def putHeader (perm : Nat) (size : Int) (base : String) : String :=
  "C" ++ goSharpOctal perm ++ " " ++ toString size ++ " " ++ base ++ "\n"

/-- The byte sequence the `scpPut` background task writes to the session's
stdin (source lines 141–156): the control line, then `io.Copy` of the
source file through the progress wrapper, then one NUL byte.  `content`
is the file's bytes (so `s.Size() = content.length`) and `chunks` is the
read chunking `io.Copy` happened to use (`chunks.flatten = content`). -/
def scpPutBytes (perm : Nat) (base : String) (content : List Nat) (chunks : List (List Nat)) : List Nat :=
  strBytes (putHeader perm (content.length : Int) base) ++
    (progressCopy (content.length : Int) chunks).1 ++ [0]

/-! ### The download payload copy (`scpGet`, source lines 216–225) -/

/-- The remote side's stdout as seen by the download's payload copy: the
bytes it will deliver, then either clean end-of-stream (`none`) or a read
error. -/
structure ByteStream where
  bytes : List Nat
  endErr : Option TransferError
deriving DecidableEq, Repr

/-- Model of `io.Copy(p, io.LimitReader(r, size))` (source line 219): the limit
reader stops after `size` bytes (a non-positive `size` reads nothing); if
the stream ends before `size` bytes, the limit reader just reports
end-of-stream, which `io.Copy` treats as success, so the copy returns the
bytes that did arrive without error; a genuine read error is returned. -/
def copyLimited (s : ByteStream) (size : Int) : Except TransferError (List Nat) :=
  if size ≤ (s.bytes.length : Int) then Except.ok (s.bytes.take size.toNat)
  else
    match s.endErr with
    | none => Except.ok s.bytes
    | some e => Except.error e

/-- What the download produced: the file path created, the mode passed to
`Chmod`, and the bytes written into the file. -/
structure GetResult where
  path : String
  mode : Nat
  data : List Nat
deriving DecidableEq, Repr

/-- The `scpGet` background task after the streams are obtained (source
lines 183–225), with local file creation and `Chmod` succeeding: parse
the control line (its `name` field is discarded, line 202), create the
caller's `dest`, chmod it to the parsed mode, then copy at most `size`
bytes of payload. -/
def scpGetBackground (dest : String) (line : String) (payload : ByteStream) :
    Except TransferError GetResult :=
  match parseControlLine line with
  | Except.error e => Except.error e
  | Except.ok (mode, size, _name) =>
      match copyLimited payload size with
      | Except.error e => Except.error e
      | Except.ok data => Except.ok ⟨dest, mode, data⟩

/-! ### The connection pool (`newSSHSession`, source lines 83–103) -/

/-- The pool key `fmt.Sprintf("%s@%s", user, host)`. -/
def targetKey (user host : String) : String := user ++ "@" ++ host

/-- Pool state: which target keys have a live cached `*ssh.Client`
(`clients[target].Client != nil`), and how many times `newSSHClient` has
been invoked (each invocation performs a fresh dial/handshake attempt). -/
structure PoolState where
  cached : List String
  handshakes : Nat
deriving DecidableEq, Repr

/-- One `newSSHSession(user, host)` call.  `dial` is the outcome
`newSSHClient` would have (consulted only when no client is cached);
`sessOk` is the outcome of `client.NewSession()`.  Looking up the entry
and creating an empty one never dials; only an entry with no cached
client calls `newSSHClient`, and it caches the client on success. -/
def newSSHSession (user host : String) (dial : Except String Unit)
    (sessOk : Except String Unit) (st : PoolState) : Except String Unit × PoolState :=
  let key := targetKey user host
  if key ∈ st.cached then (sessOk, st)
  else
    match dial with
    | Except.error e => (Except.error e, ⟨st.cached, st.handshakes + 1⟩)
    | Except.ok _ => (sessOk, ⟨key :: st.cached, st.handshakes + 1⟩)

/-! ### The fan-out executor (`parallel`, source lines 269–306) -/

/-- One fan-out unit's completion record (the `result` struct). -/
structure UnitResult where
  host : String
  index : Int
  out : List Nat
  err : Option String
deriving DecidableEq, Repr

/-- What the drain loop emits for one record: the error report
`fmt.Printf("\n%s: %s\n", r.host, r.err)` or the acknowledgment
`fmt.Printf(" %d", r.index)`. -/
inductive FanEvent where
  | ack (index : Int)
  | errReport (host : String) (err : String)
deriving DecidableEq, Repr

/-- Is the event an error report? -/
def FanEvent.isErrReport : FanEvent → Bool
  | FanEvent.errReport _ _ => true
  | FanEvent.ack _ => false

/-- Is the event an index acknowledgment? -/
def FanEvent.isAck : FanEvent → Bool
  | FanEvent.errReport _ _ => false
  | FanEvent.ack _ => true

/-- Model of `fmt.Sprintf("%04d", i)`: decimal with zeros padding the total width
to 4, the zeros coming after the sign. -/
def pad04 (i : Int) : String :=
  let digits := if i < 0 then toString (-i) else toString i
  let sgn := if i < 0 then 1 else 0
  let zeros := String.mk (List.replicate (4 - digits.length - sgn) '0')
  (if i < 0 then "-" else "") ++ zeros ++ digits

/-- Hostname `(c *cluster).host(index)` (source lines 112–114). -/
def clusterHost (name : String) (i : Int) : String :=
  "cockroach-" ++ name ++ "-" ++ pad04 i ++ ".crdb.io"

/-- The inclusive integer range `for i := a; i <= b; i++`. -/
def intRange (a b : Int) : List Int :=
  (List.range (b + 1 - a).toNat).map (fun k => a + (k : Int))

/-- The records the spawned goroutines of `parallel(a, b, fn)` put on the
results channel, one per index of the inclusive range (arrival order is a
permutation of this list). -/
def parallelUnits (name : String) (a b : Int) (fn : String → List Nat × Option String) :
    List UnitResult :=
  (intRange a b).map (fun i =>
    let host := clusterHost name i
    let r := fn host
    ⟨host, i, r.1, r.2⟩)

/-- The drain loop of `parallel` (source lines 294–302) over the records
in arrival order: emits one event per record and tracks `haveErr`. -/
def drainLoop : List UnitResult → List FanEvent × Bool
  | [] => ([], false)
  | r :: rest =>
      let out := drainLoop rest
      match r.err with
      | some e => (FanEvent.errReport r.host e :: out.1, true)
      | none => (FanEvent.ack r.index :: out.1, out.2)

/-- After the drain, `parallel` panics with "failed" exactly when
`haveErr` was set (source lines 303–305). -/
def parallelFails (rs : List UnitResult) : Bool := (drainLoop rs).2

/-- The single event the drain loop emits for one record. -/
def eventOf (r : UnitResult) : FanEvent :=
  match r.err with
  | some e => FanEvent.errReport r.host e
  | none => FanEvent.ack r.index

/-- Running totals of `done` after each chunk of a copy (the values of
`p.done` at each `progress` call). -/
def runningTotals (d : Nat) : List (List Nat) → List Nat
  | [] => []
  | c :: rest => (d + c.length) :: runningTotals (d + c.length) rest



theorem scanStrPhase_err_none {m : Nat} {s : Int} {cs : List Char}
    (h : (scanStrPhase m s cs).err = none) : (scanStrPhase m s cs).n = 3 := by
  unfold scanStrPhase at h ⊢
  cases hs : skipSpaces cs with
  | nil => rw [hs] at h; exact Option.noConfusion h
  | cons c rest => rfl

theorem scanDecPhase_err_none {m : Nat} {cs : List Char}
    (h : (scanDecPhase m cs).err = none) : (scanDecPhase m cs).n = 3 := by
  unfold scanDecPhase at h ⊢
  cases hs : skipSpaces cs with
  | nil => rw [hs] at h; exact Option.noConfusion h
  | cons c rest =>
    rw [hs] at h
    revert h
    dsimp only
    split_ifs <;> intro h2 <;> first
      | exact h2.elim
      | exact Option.noConfusion h2
      | exact scanStrPhase_err_none h2

theorem scanOctPhase_err_none {cs : List Char}
    (h : (scanOctPhase cs).err = none) : (scanOctPhase cs).n = 3 := by
  unfold scanOctPhase at h ⊢
  cases hs : skipSpaces cs with
  | nil => rw [hs] at h; exact Option.noConfusion h
  | cons c rest =>
    rw [hs] at h
    revert h
    dsimp only
    split_ifs <;> intro h2 <;> first
      | exact h2.elim
      | exact Option.noConfusion h2
      | exact scanDecPhase_err_none h2

theorem sscanfCtl_err_none {line : String}
    (h : (sscanfCtl line).err = none) : (sscanfCtl line).n = 3 := by
  unfold sscanfCtl at h ⊢
  cases hs : line.data with
  | nil => rw [hs] at h; exact Option.noConfusion h
  | cons c rest =>
    rw [hs] at h
    revert h
    dsimp only
    split_ifs <;> intro h2 <;> first
      | exact h2.elim
      | exact Option.noConfusion h2
      | exact scanOctPhase_err_none h2

theorem parseControlLine_cases (line : String) :
    (∃ m s nm, parseControlLine line = Except.ok (m, s, nm)) ∨
      ∃ e, parseControlLine line = Except.error (TransferError.scanError e) := by
  unfold parseControlLine
  dsimp only
  cases he : (sscanfCtl line).err with
  | some e => right; exact ⟨e, rfl⟩
  | none =>
    left
    have h3 := sscanfCtl_err_none he
    rw [if_neg (by simp [h3])]
    exact ⟨_, _, _, rfl⟩

/-- C2 (amended): a control line that does not scan as three fields makes
the download fail with the scanner's own error; the branch returning the
literal offending line is unreachable, because the scanner already
returns an error whenever fewer than three operands were scanned. -/
theorem scpGet_malformed_line_scan_error (line other : String) :
    ((∃ m s nm, parseControlLine line = Except.ok (m, s, nm)) ∨
      ∃ e, parseControlLine line = Except.error (TransferError.scanError e)) ∧
      parseControlLine line ≠ Except.error (TransferError.literalLine other) := by
  refine ⟨parseControlLine_cases line, ?_⟩
  rcases parseControlLine_cases line with ⟨m, s, nm, h⟩ | ⟨e, h⟩ <;> rw [h] <;> intro hc
  · exact Except.noConfusion hc
  · exact TransferError.noConfusion (Except.error.inj hc)

/-- C2 (counterexample): on the malformed line `hello` the error sent is
the scanner's "input does not match format", not an error carrying the
literal line. -/
theorem scpGet_malformed_line_counterexample :
    parseControlLine "hello" =
        Except.error (TransferError.scanError ScanError.badFormatMatch) ∧
      TransferError.scanError ScanError.badFormatMatch ≠
        TransferError.literalLine "hello" :=
  ⟨rfl, fun h => TransferError.noConfusion h⟩

/-- C1 (amended): the final `select` of `scpPut`/`scpGet` consults the
background error slot first.  A pending background error is returned; a
closed slot (background success) makes the call return nil even when the
foreground command failed; only while the slot is still empty (background
not finished) is the foreground command's error returned. -/
theorem transfer_join_channel_first (fg : Option TransferError) (e : TransferError) :
    (scpPutReturn ErrChState.empty fg = fg ∧ scpGetReturn ErrChState.empty fg = fg) ∧
      (scpPutReturn (ErrChState.pending e) fg = some e ∧
        scpGetReturn (ErrChState.pending e) fg = some e) ∧
      (scpPutReturn ErrChState.closedCh fg = none ∧
        scpGetReturn ErrChState.closedCh fg = none) :=
  ⟨⟨rfl, rfl⟩, ⟨rfl, rfl⟩, ⟨rfl, rfl⟩⟩

/-- C1 (counterexample): with the background task already finished
successfully (channel closed) and the foreground `session.Run` failing,
`scpPut` returns nil rather than the foreground error. -/
theorem transfer_join_foreground_counterexample :
    scpPutReturn ErrChState.closedCh (some (TransferError.ioError "Process exited with status 1")) ≠
      some (TransferError.ioError "Process exited with status 1") :=
  fun h => Option.noConfusion h

/-- C3: two sequential successful `newSSHSession` calls for the same
(user, host), starting with no cached client for that target, perform
exactly one `newSSHClient` handshake.  The second call returns a session
from the cached client, changes nothing, and never consults the dial
outcome — whatever it would have been. -/
theorem pool_second_call_reuses_client (user host : String) (st : PoolState)
    (dial2 : Except String Unit) (h : targetKey user host ∉ st.cached) :
    (newSSHSession user host (Except.ok ()) (Except.ok ()) st).1 = Except.ok () ∧
      (newSSHSession user host (Except.ok ()) (Except.ok ()) st).2.handshakes =
        st.handshakes + 1 ∧
      newSSHSession user host dial2 (Except.ok ())
          ((newSSHSession user host (Except.ok ()) (Except.ok ()) st).2) =
        (Except.ok (), (newSSHSession user host (Except.ok ()) (Except.ok ()) st).2) := by
  unfold newSSHSession
  rw [if_neg h]
  refine ⟨rfl, rfl, ?_⟩
  dsimp only
  rw [if_pos (List.mem_cons_self _ _)]

/-- C3 (witness): a fresh pool, first call dials once, second call reuses
the cached client even though a second dial would have failed. -/
theorem pool_second_call_reuses_client_witness :
    targetKey "cockroach" "h1" ∉ (⟨[], 0⟩ : PoolState).cached ∧
      ((newSSHSession "cockroach" "h1" (Except.ok ()) (Except.ok ()) ⟨[], 0⟩).1 = Except.ok () ∧
        (newSSHSession "cockroach" "h1" (Except.ok ()) (Except.ok ()) ⟨[], 0⟩).2.handshakes =
          (⟨[], 0⟩ : PoolState).handshakes + 1 ∧
        newSSHSession "cockroach" "h1" (Except.error "no agent") (Except.ok ())
            ((newSSHSession "cockroach" "h1" (Except.ok ()) (Except.ok ()) ⟨[], 0⟩).2) =
          (Except.ok (), (newSSHSession "cockroach" "h1" (Except.ok ()) (Except.ok ()) ⟨[], 0⟩).2)) :=
  ⟨List.not_mem_nil _,
    pool_second_call_reuses_client "cockroach" "h1" ⟨[], 0⟩ (Except.error "no agent")
      (List.not_mem_nil _)⟩

theorem drainLoop_fst (rs : List UnitResult) : (drainLoop rs).1 = rs.map eventOf := by
  induction rs with
  | nil => rfl
  | cons r rest ih => cases hr : r.err <;> simp [drainLoop, eventOf, hr, ih]

theorem drainLoop_snd (rs : List UnitResult) :
    (drainLoop rs).2 = rs.any (fun r => r.err.isSome) := by
  induction rs with
  | nil => rfl
  | cons r rest ih => cases hr : r.err <;> simp [drainLoop, hr, ih]

theorem eventOf_isErrReport (r : UnitResult) :
    (eventOf r).isErrReport = r.err.isSome := by
  cases hr : r.err <;> simp [eventOf, hr, FanEvent.isErrReport]

theorem eventOf_isAck (r : UnitResult) : (eventOf r).isAck = r.err.isNone := by
  cases hr : r.err <;> simp [eventOf, hr, FanEvent.isAck]

theorem map_eventOf_acks (l : List UnitResult) (h : ∀ x ∈ l, x.err = none) :
    l.map eventOf = l.map (fun r => FanEvent.ack r.index) := by
  induction l with
  | nil => rfl
  | cons x xs ih =>
      have hx := h x (List.mem_cons_self x xs)
      simp only [List.map_cons, eventOf, hx]
      rw [ih (fun y hy => h y (List.mem_cons_of_mem x hy))]

/-- C4: a fan-out over the inclusive range `[a, b]` in which exactly one
unit's operation errors: whatever the arrival order `rs` (any permutation
of the spawned units' records), the drain emits one event per unit (it
never stops early), exactly one (host, error) report — the failing
unit's — plus an index acknowledgment for every succeeding unit, and the
batch ends in the failure panic. -/
theorem parallel_single_failure_drains_all
    (name : String) (a b : Int) (fn : String → List Nat × Option String)
    (rs : List UnitResult) (u : UnitResult) (e : String)
    (hperm : rs.Perm (parallelUnits name a b fn))
    (hone : (parallelUnits name a b fn).filter (fun r => r.err.isSome) = [u])
    (hue : u.err = some e) :
    parallelFails rs = true ∧
      (drainLoop rs).1.length = rs.length ∧
      (drainLoop rs).1.filter FanEvent.isErrReport = [FanEvent.errReport u.host e] ∧
      ((drainLoop rs).1.filter FanEvent.isAck).Perm
        (((parallelUnits name a b fn).filter (fun r => r.err.isNone)).map
          (fun r => FanEvent.ack r.index)) := by
  have hfs : rs.filter (fun r => r.err.isSome) = [u] := by
    have hp := hperm.filter (fun r => r.err.isSome)
    rw [hone] at hp
    exact List.perm_singleton.mp hp
  have humem : u ∈ rs ∧ u.err.isSome = true := by
    have : u ∈ rs.filter (fun r => r.err.isSome) := by rw [hfs]; exact List.mem_singleton_self u
    exact ⟨List.mem_of_mem_filter this, by simpa using List.of_mem_filter this⟩
  refine ⟨?_, ?_, ?_, ?_⟩
  · unfold parallelFails
    rw [drainLoop_snd]
    exact List.any_eq_true.mpr ⟨u, humem.1, humem.2⟩
  · rw [drainLoop_fst, List.length_map]
  · rw [drainLoop_fst, List.filter_map]
    have hcomp : (FanEvent.isErrReport ∘ eventOf) = fun r => r.err.isSome :=
      funext eventOf_isErrReport
    rw [hcomp, hfs]
    simp [eventOf, hue]
  · rw [drainLoop_fst, List.filter_map]
    have hcomp : (FanEvent.isAck ∘ eventOf) = fun r => r.err.isNone :=
      funext eventOf_isAck
    rw [hcomp]
    have hp2 := (hperm.filter (fun r => r.err.isNone)).map eventOf
    refine hp2.trans ?_
    rw [map_eventOf_acks]
    intro x hx
    have := List.of_mem_filter hx
    exact Option.isNone_iff_eq_none.mp (by simpa using this)

/-- C4 (witness): range 1..6, index 3 failing, records arriving in reverse
order: one error report, five acknowledgments, batch failed. -/
theorem parallel_single_failure_drains_all_witness :
    ([⟨"cockroach-denim-0006.crdb.io", 6, [79, 75], none⟩,
      ⟨"cockroach-denim-0005.crdb.io", 5, [79, 75], none⟩,
      ⟨"cockroach-denim-0004.crdb.io", 4, [79, 75], none⟩,
      ⟨"cockroach-denim-0003.crdb.io", 3, [], some "exit status 1"⟩,
      ⟨"cockroach-denim-0002.crdb.io", 2, [79, 75], none⟩,
      ⟨"cockroach-denim-0001.crdb.io", 1, [79, 75], none⟩] : List UnitResult).Perm
        (parallelUnits "denim" 1 6
          (fun h => if h = "cockroach-denim-0003.crdb.io" then ([], some "exit status 1")
            else ([79, 75], none))) ∧
      parallelFails
        [⟨"cockroach-denim-0006.crdb.io", 6, [79, 75], none⟩,
          ⟨"cockroach-denim-0005.crdb.io", 5, [79, 75], none⟩,
          ⟨"cockroach-denim-0004.crdb.io", 4, [79, 75], none⟩,
          ⟨"cockroach-denim-0003.crdb.io", 3, [], some "exit status 1"⟩,
          ⟨"cockroach-denim-0002.crdb.io", 2, [79, 75], none⟩,
          ⟨"cockroach-denim-0001.crdb.io", 1, [79, 75], none⟩] = true :=
  ⟨by decide,
    (parallel_single_failure_drains_all "denim" 1 6
      (fun h => if h = "cockroach-denim-0003.crdb.io" then ([], some "exit status 1")
        else ([79, 75], none))
      [⟨"cockroach-denim-0006.crdb.io", 6, [79, 75], none⟩,
        ⟨"cockroach-denim-0005.crdb.io", 5, [79, 75], none⟩,
        ⟨"cockroach-denim-0004.crdb.io", 4, [79, 75], none⟩,
        ⟨"cockroach-denim-0003.crdb.io", 3, [], some "exit status 1"⟩,
        ⟨"cockroach-denim-0002.crdb.io", 2, [79, 75], none⟩,
        ⟨"cockroach-denim-0001.crdb.io", 1, [79, 75], none⟩]
      ⟨"cockroach-denim-0003.crdb.io", 3, [], some "exit status 1"⟩ "exit status 1"
      (by decide) (by decide) rfl).1⟩

theorem progressCopyAux_fst (t : Int) :
    ∀ (chunks : List (List Nat)) (d : Nat),
      (progressCopyAux t d chunks).1 = chunks.flatten := by
  intro chunks
  induction chunks with
  | nil => intro d; rfl
  | cons c rest ih => intro d; simp [progressCopyAux, ih]

theorem progressCopyAux_snd (t : Int) :
    ∀ (chunks : List (List Nat)) (d : Nat),
      (progressCopyAux t d chunks).2 = (runningTotals d chunks).map (progressVal t) := by
  intro chunks
  induction chunks with
  | nil => intro d; rfl
  | cons c rest ih => intro d; simp [progressCopyAux, runningTotals, ih]

theorem runningTotals_chain :
    ∀ (chunks : List (List Nat)) (d : Nat),
      List.Chain' (· ≤ ·) (runningTotals d chunks) := by
  intro chunks
  induction chunks with
  | nil => intro d; simp [runningTotals]
  | cons c rest ih =>
      intro d
      rw [runningTotals]
      refine List.chain'_cons'.mpr ⟨?_, ih (d + c.length)⟩
      intro y hy
      cases rest with
      | nil => simp [runningTotals] at hy
      | cons c2 r2 =>
          rw [runningTotals] at hy
          simp only [List.head?_cons, Option.mem_def, Option.some.injEq] at hy
          omega

theorem runningTotals_getLast :
    ∀ (chunks : List (List Nat)) (d : Nat), chunks ≠ [] →
      (runningTotals d chunks).getLast? = some (d + chunks.flatten.length) := by
  intro chunks
  induction chunks with
  | nil => intro d h; exact absurd rfl h
  | cons c rest ih =>
      intro d _
      cases rest with
      | nil => simp [runningTotals]
      | cons c2 r2 =>
          rw [runningTotals, runningTotals]
          rw [List.getLast?_cons_cons]
          rw [← runningTotals]
          rw [ih (d + c.length) (by simp)]
          simp [List.flatten_cons, Nat.add_assoc]

theorem runningTotals_dropLast_lt :
    ∀ (chunks : List (List Nat)) (d : Nat), (∀ c ∈ chunks, c ≠ []) →
      ∀ m ∈ (runningTotals d chunks).dropLast, m < d + chunks.flatten.length := by
  intro chunks
  induction chunks with
  | nil => intro d _ m hm; simp [runningTotals] at hm
  | cons c rest ih =>
      intro d hne m hm
      cases rest with
      | nil => simp [runningTotals] at hm
      | cons c2 r2 =>
          rw [runningTotals, runningTotals] at hm
          rw [← runningTotals] at hm
          rw [List.dropLast_cons_of_ne_nil (by rw [runningTotals]; simp)] at hm
          rcases List.mem_cons.mp hm with h1 | h2
          · subst h1
            have hc2 : c2 ≠ [] := hne c2 (by simp)
            have : 0 < c2.length := List.length_pos.mpr hc2
            simp only [List.flatten_cons, List.length_append]
            omega
          · have := ih (d + c.length) (fun x hx => hne x (List.mem_cons_of_mem _ hx)) m h2
            simp only [List.flatten_cons, List.length_append] at this ⊢
            omega

theorem list_getLast?_map {α β : Type} (f : α → β) :
    ∀ l : List α, (l.map f).getLast? = l.getLast?.map f := by
  intro l
  induction l with
  | nil => rfl
  | cons x xs ih =>
      cases xs with
      | nil => rfl
      | cons y ys => rw [List.map_cons, List.map_cons, List.getLast?_cons_cons,
          ← List.map_cons, ih, List.getLast?_cons_cons]

theorem list_dropLast_map {α β : Type} (f : α → β) :
    ∀ l : List α, (l.map f).dropLast = l.dropLast.map f := by
  intro l
  induction l with
  | nil => rfl
  | cons x xs ih =>
      cases xs with
      | nil => rfl
      | cons y ys =>
          simp only [List.map_cons, List.dropLast_cons₂]
          exact congrArg (fun l => f x :: l) ih

/-- C5: the byte sequence `scpPut` writes to the session's stdin for a
file with content `content`, permission bits `perm` and basename `base`
is exactly the control line `C<octal(perm)> <size> <base>\n`, then the
`size = content.length` file bytes, then one NUL byte — whatever read
chunking `io.Copy` used. -/
theorem scpPut_wire_format (perm : Nat) (base : String) (content : List Nat)
    (chunks : List (List Nat)) (h : chunks.flatten = content) :
    scpPutBytes perm base content chunks =
      strBytes ("C" ++ goSharpOctal perm ++ " " ++ toString (content.length : Int) ++
        " " ++ base ++ "\n") ++ content ++ [0] := by
  unfold scpPutBytes putHeader progressCopy
  rw [progressCopyAux_fst, h]

/-- C5 (witness): a 4-byte file with mode 0644 and basename `data.bin`
split into two read chunks. -/
theorem scpPut_wire_format_witness :
    ([[10, 20], [30, 40]] : List (List Nat)).flatten = [10, 20, 30, 40] ∧
      scpPutBytes 420 "data.bin" [10, 20, 30, 40] [[10, 20], [30, 40]] =
        strBytes ("C" ++ goSharpOctal 420 ++ " " ++
          toString (([10, 20, 30, 40] : List Nat).length : Int) ++ " " ++ "data.bin" ++
          "\n") ++ [10, 20, 30, 40] ++ [0] :=
  ⟨rfl, scpPut_wire_format 420 "data.bin" [10, 20, 30, 40] [[10, 20], [30, 40]] rfl⟩

theorem chain'_map_progressVal (t : Int) (ht : (0 : ℚ) < ((t : Int) : ℚ)) :
    ∀ l : List Nat, List.Chain' (· ≤ ·) l →
      List.Chain' (· ≤ ·) (l.map (progressVal t)) := by
  intro l
  induction l with
  | nil => intro h; simp
  | cons x xs ih =>
      intro h
      rcases List.chain'_cons'.mp h with ⟨hhead, htail⟩
      rw [List.map_cons]
      refine List.chain'_cons'.mpr ⟨?_, ih htail⟩
      intro y hy
      cases xs with
      | nil => simp at hy
      | cons z zs =>
          simp only [List.map_cons, List.head?_cons, Option.mem_def,
            Option.some.injEq] at hy
          subst hy
          have hxz : x ≤ z := hhead z (by simp)
          unfold progressVal
          exact (div_le_div_right ht).mpr (by exact_mod_cast hxz)

/-- C6: for a transfer of known positive size `T` transferred completely
(the chunks are the non-empty writes of `io.Copy` and total `T` bytes),
the values passed to the progress callback are non-decreasing, the final
value is exactly 1, and every value before the final write is < 1 — so 1
is reached exactly when the last payload byte is transferred. -/
theorem progress_monotone_final_one (T : Nat) (chunks : List (List Nat))
    (hT : 0 < T) (hne : ∀ c ∈ chunks, c ≠ []) (hsum : chunks.flatten.length = T) :
    List.Chain' (· ≤ ·) ((progressCopy (T : Int) chunks).2) ∧
      ((progressCopy (T : Int) chunks).2).getLast? = some 1 ∧
      ∀ q ∈ ((progressCopy (T : Int) chunks).2).dropLast, q < 1 := by
  have hTQ : (0 : ℚ) < (((T : Nat) : Int) : ℚ) := by
    push_cast
    exact_mod_cast hT
  have hchunks : chunks ≠ [] := by
    intro hc
    rw [hc] at hsum
    simp at hsum
    omega
  unfold progressCopy
  rw [progressCopyAux_snd]
  refine ⟨?_, ?_, ?_⟩
  · exact chain'_map_progressVal _ hTQ _ (runningTotals_chain chunks 0)
  · rw [list_getLast?_map (progressVal ((T : Nat) : Int)) (runningTotals 0 chunks)]
    rw [runningTotals_getLast chunks 0 hchunks, hsum]
    simp only [Nat.zero_add, Option.map_some']
    unfold progressVal
    rw [show (((T : Nat) : ℚ)) = (((T : Nat) : Int) : ℚ) by push_cast; rfl]
    rw [div_self (ne_of_gt hTQ)]
  · intro q hq
    rw [list_dropLast_map (progressVal ((T : Nat) : Int)) (runningTotals 0 chunks)] at hq
    rcases List.mem_map.mp hq with ⟨m, hm, hfm⟩
    have hlt := runningTotals_dropLast_lt chunks 0 hne m hm
    rw [hsum, Nat.zero_add] at hlt
    rw [← hfm]
    unfold progressVal
    rw [div_lt_one hTQ]
    exact_mod_cast hlt

/-- C6 (witness): a 3-byte transfer in chunks of 1 and 2 bytes: progress
values 1/3 then 1. -/
theorem progress_monotone_final_one_witness :
    ((0 < 3 ∧ ([[5], [6, 7]] : List (List Nat)).flatten.length = 3) ∧
      (List.Chain' (· ≤ ·) ((progressCopy ((3 : Nat) : Int) [[5], [6, 7]]).2) ∧
        ((progressCopy ((3 : Nat) : Int) [[5], [6, 7]]).2).getLast? = some 1 ∧
        ∀ q ∈ ((progressCopy ((3 : Nat) : Int) [[5], [6, 7]]).2).dropLast, q < 1)) :=
  ⟨⟨by decide, by decide⟩,
    progress_monotone_final_one 3 [[5], [6, 7]] (by decide) (by decide) (by decide)⟩

/-- C7: bytes transferred never exceed the declared size.  For a download,
the payload copy goes through `io.LimitReader(r, size)`, so however many
bytes the stream offers, at most `size` (and never more than 0 for a
non-positive `size`) reach the destination file.  For an upload, the
payload the background task sends is exactly the file content whose
length is the declared size written in the control line beforehand. -/
theorem transfer_size_bound :
    (∀ (s : ByteStream) (size : Int) (r : List Nat),
        copyLimited s size = Except.ok r → (r.length : Int) ≤ max size 0) ∧
      ∀ (content : List Nat) (chunks : List (List Nat)), chunks.flatten = content →
        ((progressCopy ((content.length : Nat) : Int) chunks).1).length = content.length := by
  constructor
  · intro s size r h
    unfold copyLimited at h
    split at h
    · rw [Except.ok.injEq] at h
      subst h
      simp only [List.length_take]
      omega
    · cases he : s.endErr with
      | none =>
          rw [he] at h
          rw [Except.ok.injEq] at h
          subst h
          omega
      | some e => rw [he] at h; exact Except.noConfusion h
  · intro content chunks h
    unfold progressCopy
    rw [progressCopyAux_fst, h]

/-- C7 (witness): a stream offering 3 bytes limited to size 2 delivers 2
bytes; a 1-byte upload sends a 1-byte payload. -/
theorem transfer_size_bound_witness :
    (copyLimited ⟨[1, 2, 3], none⟩ 2 = Except.ok [1, 2] ∧
        ((([1, 2] : List Nat).length : Int) ≤ max 2 0)) ∧
      (([[9]] : List (List Nat)).flatten = [9] ∧
        ((progressCopy ((([9] : List Nat).length : Nat) : Int) [[9]]).1).length =
          ([9] : List Nat).length) :=
  ⟨⟨rfl, transfer_size_bound.1 ⟨[1, 2, 3], none⟩ 2 [1, 2] rfl⟩,
    ⟨rfl, transfer_size_bound.2 [9] [[9]] rfl⟩⟩

/-- C8 (amended): a short read of the payload — the remote output stream
reaching clean end-of-stream before `size` bytes — is NOT detected: the
limit reader reports end-of-stream, `io.Copy` treats that as success, and
the transfer's background task completes without error, having written
only the bytes that arrived. -/
theorem scpGet_short_read_success (dest line : String) (payload : ByteStream)
    (m : Nat) (s : Int) (nm : String)
    (hparse : parseControlLine line = Except.ok (m, s, nm))
    (hend : payload.endErr = none)
    (hshort : (payload.bytes.length : Int) < s) :
    scpGetBackground dest line payload = Except.ok ⟨dest, m, payload.bytes⟩ := by
  unfold scpGetBackground
  rw [hparse]
  dsimp only
  unfold copyLimited
  rw [if_neg (by omega), hend]

/-- C8 (counterexample): declared size 5, the stream ends after 3 bytes:
`scpGet`'s background task reports success with a 3-byte file instead of
failing. -/
theorem scpGet_short_read_counterexample :
    scpGetBackground "dest" "C0644 5 f" ⟨[1, 2, 3], none⟩ =
        Except.ok ⟨"dest", 420, [1, 2, 3]⟩ ∧
      (([1, 2, 3] : List Nat).length : Int) < 5 :=
  ⟨rfl, by decide⟩

/-- C8 (witness): concrete short read via the amended theorem. -/
theorem scpGet_short_read_success_witness :
    parseControlLine "C0644 5 f" = Except.ok (420, 5, "f") ∧
      scpGetBackground "short" "C0644 5 f" ⟨[7, 8], none⟩ =
        Except.ok ⟨"short", 420, [7, 8]⟩ :=
  ⟨rfl, scpGet_short_read_success "short" "C0644 5 f" ⟨[7, 8], none⟩ 420 5 "f"
    rfl rfl (by decide)⟩

/-- C9: a transfer of declared size 0 never invokes the progress
callback: the download's limit reader delivers no bytes at all, and
`io.Copy` over an empty source performs no writes, so `progressWriter`
emits no progress values. -/
theorem progress_zero_size_no_calls :
    (∀ s : ByteStream, copyLimited s 0 = Except.ok []) ∧
      ∀ (total : Int) (chunks : List (List Nat)),
        (∀ c ∈ chunks, c ≠ []) → chunks.flatten = [] →
          (progressCopy total chunks).2 = [] := by
  constructor
  · intro s
    unfold copyLimited
    rw [if_pos (by exact_mod_cast Int.ofNat_nonneg s.bytes.length)]
    rfl
  · intro total chunks hne hflat
    cases chunks with
    | nil => rfl
    | cons c rest =>
        exfalso
        rw [List.flatten_cons] at hflat
        rcases List.append_eq_nil.mp hflat with ⟨hc, _⟩
        exact hne c (List.mem_cons_self c rest) hc

/-- C9 (witness): size-0 download delivers nothing; an empty source has
only the empty chunking, with no progress calls. -/
theorem progress_zero_size_no_calls_witness :
    copyLimited ⟨[4, 5], none⟩ 0 = Except.ok [] ∧
      (progressCopy 0 ([] : List (List Nat))).2 = [] :=
  ⟨progress_zero_size_no_calls.1 ⟨[4, 5], none⟩,
    progress_zero_size_no_calls.2 0 [] (by decide) rfl⟩

/-- C10: the `name` field of the download control line is ignored: the
file created is always the caller-supplied `dest`, and two control lines
that agree on mode and size but differ in name produce identical
download outcomes. -/
theorem scpGet_name_field_ignored :
    (∀ (dest line : String) (payload : ByteStream) (r : GetResult),
        scpGetBackground dest line payload = Except.ok r → r.path = dest) ∧
      ∀ (dest l1 l2 : String) (payload : ByteStream) (m : Nat) (s : Int)
        (n1 n2 : String),
        parseControlLine l1 = Except.ok (m, s, n1) →
        parseControlLine l2 = Except.ok (m, s, n2) →
        scpGetBackground dest l1 payload = scpGetBackground dest l2 payload := by
  constructor
  · intro dest line payload r h
    unfold scpGetBackground at h
    rcases hp : parseControlLine line with e | ⟨m, s, nm⟩
    · rw [hp] at h; exact Except.noConfusion h
    · rw [hp] at h
      dsimp only at h
      rcases hc : copyLimited payload s with e | data
      · rw [hc] at h; exact Except.noConfusion h
      · rw [hc] at h
        rw [Except.ok.injEq] at h
        rw [← h]
  · intro dest l1 l2 payload m s n1 n2 h1 h2
    unfold scpGetBackground
    rw [h1, h2]

/-- C10 (witness): lines `C0644 3 a` and `C0644 3 b` yield identical downloads,
creating the caller's `dst` path. -/
theorem scpGet_name_field_ignored_witness :
    (scpGetBackground "dst" "C0644 3 a" ⟨[1, 2, 3], none⟩ =
        Except.ok ⟨"dst", 420, [1, 2, 3]⟩) ∧
      parseControlLine "C0644 3 a" = Except.ok (420, 3, "a") ∧
      parseControlLine "C0644 3 b" = Except.ok (420, 3, "b") ∧
      ((⟨"dst", 420, [1, 2, 3]⟩ : GetResult).path = "dst") ∧
      scpGetBackground "dst" "C0644 3 a" ⟨[1, 2, 3], none⟩ =
        scpGetBackground "dst" "C0644 3 b" ⟨[1, 2, 3], none⟩ :=
  ⟨rfl, rfl, rfl,
    scpGet_name_field_ignored.1 "dst" "C0644 3 a" ⟨[1, 2, 3], none⟩
      ⟨"dst", 420, [1, 2, 3]⟩ rfl,
    scpGet_name_field_ignored.2 "dst" "C0644 3 a" "C0644 3 b" ⟨[1, 2, 3], none⟩
      420 3 "a" "b" rfl rfl⟩

end Roachperf
